import Mathlib

/-!
Shallow embedding of the scheduling core of `spotifydl_gui` (job/item state
machine, runner backoff and adaptive-concurrency logic, queue id allocation,
and job serialization), together with theorems checking the specification's
claims against these definitions.

Python sources embedded here:
  * `spotifydl_gui/job_types.py`  — `JobState`, `JobItemState`, `JobItem`, `Job`
  * `spotifydl_gui/job_queue.py`  — `JobQueue.set_job_state`, id allocators,
    `_load_state` resynchronization
  * `spotifydl_gui/runner.py`     — backoff / rate-limit / adaptive-parallel
    logic of `_handle_item_finished`, `_adaptive_adjust`, `_saw_rate_limit`,
    `_finalize_job`, `start_job`, and the percent-token extraction of
    `_tail_tick`

Python `float` timestamps are modelled as rationals (`Rat`): the code only
stores, copies and truthiness-tests them, never does arithmetic on them, so
every value taken by a timestamp is represented exactly.
-/

namespace SpotifydlGui

/-- Python `JobState` enum of `job_types.py` (string-valued in Python). -/
inductive JobState where
  | pending
  | running
  | paused
  | success
  | failed
  | cancelled
  deriving DecidableEq, Repr

/-- Python `JobState.value`: the string payload of each enum member. -/
def JobState.value : JobState → String
  | .pending => "pending"
  | .running => "running"
  | .paused => "paused"
  | .success => "success"
  | .failed => "failed"
  | .cancelled => "cancelled"

/-- Python `JobState.is_terminal` of `job_types.py`. -/
def JobState.is_terminal : JobState → Bool
  | .success => true
  | .failed => true
  | .cancelled => true
  | _ => false

/-- Python `JobItemState` enum of `job_types.py`. -/
inductive JobItemState where
  | pending
  | running
  | success
  | failed
  | skipped
  | cancelled
  deriving DecidableEq, Repr

/-- Python `JobItemState.value`: the string payload of each enum member. -/
def JobItemState.value : JobItemState → String
  | .pending => "pending"
  | .running => "running"
  | .success => "success"
  | .failed => "failed"
  | .skipped => "skipped"
  | .cancelled => "cancelled"

/-- Python `JobItemState.is_terminal` of `job_types.py`. -/
def JobItemState.is_terminal : JobItemState → Bool
  | .success => true
  | .failed => true
  | .skipped => true
  | .cancelled => true
  | _ => false

/-! ### Backoff ladder (`runner.py`)

Module constants of `runner.py`:
`THROTTLE_TRACKS_THRESHOLD = 30`, `BACKOFF_SEQUENCE_SECONDS = [10, 20, 30]`,
`BACKOFF_RESET_ON_SUCCESS = True`,
`RATE_LIMIT_TOKENS = ("429", "rate limit", "too many requests", "slow down")`.
-/

def THROTTLE_TRACKS_THRESHOLD : Nat := 30

def BACKOFF_SEQUENCE_SECONDS : List Nat := [10, 20, 30]

def BACKOFF_RESET_ON_SUCCESS : Bool := true

def RATE_LIMIT_TOKENS : List String := ["429", "rate limit", "too many requests", "slow down"]

/-- The part of the runner's mutable state that the backoff computation in
`_handle_item_finished` reads and writes: `self._consecutive_failures` and
`self._backoff_index`. -/
structure BackoffState where
  consecutive_failures : Nat
  backoff_index : Nat
  deriving DecidableEq, Repr

/-- Python `_tail_tick` appends `text.replace("\r", "").lower()` to
`self._raw_collector`. Replacing the one-character needle `"\r"` by the empty
string is exactly dropping every `'\r'`; `str.lower` is modelled per character
by `Char.toLower`, which agrees with Python on the ASCII range the rate-limit
tokens live in. -/
def collectRaw (text : String) : List Char :=
  (text.data.filter (fun c => c ≠ '\r')).map Char.toLower

/-- Helper: `leadMatch needle hay` means `needle` starts `hay` character by character. -/
def leadMatch : List Char → List Char → Bool
  | [], _ => true
  | _ :: _, [] => false
  | c :: cs, d :: ds => c = d && leadMatch cs ds

/-- Python's `needle in hay` on strings: contiguous substring occurrence. -/
def subMatch (needle : List Char) : List Char → Bool
  | [] => leadMatch needle []
  | d :: ds => leadMatch needle (d :: ds) || subMatch needle ds

/-- Python `Runner._saw_rate_limit`, applied to the joined collector text: true when
any of `RATE_LIMIT_TOKENS` occurs as a substring (the collector is empty
exactly when the joined text is empty, and no token is a substring of the
empty string, so the early `return False` coincides with this). -/
def sawRateLimit (collected : List Char) : Bool :=
  RATE_LIMIT_TOKENS.any (fun tok => subMatch tok.data collected)

/-- One observed item completion, as consumed by the backoff computation:
the process exit code, the raw output collected by the tail ticker, and the
number of output files the reconciler reported (`len(outputs)`). -/
structure ItemOutcome where
  code : Int
  raw : String
  outputs : Nat
  deriving DecidableEq, Repr

/-- The backoff / delay computation at the end of
`Runner._handle_item_finished` (runner.py lines 654–670):

```
delay_sec = 0
if len(outputs) >= THROTTLE_TRACKS_THRESHOLD:
    delay_sec = max(delay_sec, BACKOFF_SEQUENCE_SECONDS[0])
if int(code) != 0 and not self._job_cancelled:
    self._consecutive_failures += 1
    if self._backoff_index < len(BACKOFF_SEQUENCE_SECONDS) - 1:
        self._backoff_index += 1
    if self._saw_rate_limit():
        self._backoff_index = len(BACKOFF_SEQUENCE_SECONDS) - 1
    delay_sec = max(delay_sec, BACKOFF_SEQUENCE_SECONDS[self._backoff_index])
else:
    if BACKOFF_RESET_ON_SUCCESS:
        self._consecutive_failures = 0
        self._backoff_index = 0
if self._sentry_enabled:
    delay_sec = max(delay_sec, max(5, int(self._sentry_gap_sec)))
```

Returns the updated `(consecutive_failures, backoff_index)` state and the
computed `delay_sec`. -/
def handleBackoff (st : BackoffState) (o : ItemOutcome) (jobCancelled : Bool)
    (sentryEnabled : Bool) (sentryGapSec : Nat) : BackoffState × Nat :=
  let delay0 : Nat := 0
  let delay1 : Nat :=
    if o.outputs ≥ THROTTLE_TRACKS_THRESHOLD then
      max delay0 (BACKOFF_SEQUENCE_SECONDS.getD 0 0)
    else delay0
  let (st', delay2) :=
    if o.code ≠ 0 ∧ jobCancelled = false then
      let failures := st.consecutive_failures + 1
      let idx1 :=
        if st.backoff_index < BACKOFF_SEQUENCE_SECONDS.length - 1 then
          st.backoff_index + 1
        else st.backoff_index
      let idx2 :=
        if sawRateLimit (collectRaw o.raw) = true then BACKOFF_SEQUENCE_SECONDS.length - 1
        else idx1
      (⟨failures, idx2⟩, max delay1 (BACKOFF_SEQUENCE_SECONDS.getD idx2 0))
    else
      (if BACKOFF_RESET_ON_SUCCESS then ⟨0, 0⟩ else st, delay1)
  let delay3 :=
    if sentryEnabled then max delay2 (max 5 sentryGapSec) else delay2
  (st', delay3)

/-- The delays proposed along a run of items: fold `handleBackoff` over a list
of outcomes (sentry off, job not cancelled), collecting each item's
`delay_sec`. -/
def runDelays (st : BackoffState) : List ItemOutcome → List Nat
  | [] => []
  | o :: os =>
    let r := handleBackoff st o false false 0
    r.2 :: runDelays r.1 os

/-- An outcome is a "plain failure" when its exit code is non-zero, its raw
output carries no rate-limit token, and it produced fewer output files than
the throttle threshold. -/
def plainFailure (o : ItemOutcome) : Prop :=
  o.code ≠ 0 ∧ sawRateLimit (collectRaw o.raw) = false ∧
    o.outputs < THROTTLE_TRACKS_THRESHOLD

instance (o : ItemOutcome) : Decidable (plainFailure o) := by
  unfold plainFailure; infer_instance

/-- The ladder value read at index `i`: `BACKOFF_SEQUENCE_SECONDS[i]`. -/
def ladderAt (i : Nat) : Nat :=
  BACKOFF_SEQUENCE_SECONDS.getD i 0

/-- The index advance of the failure branch:
`if self._backoff_index < len(BACKOFF_SEQUENCE_SECONDS) - 1: self._backoff_index += 1`. -/
def advanceIndex (i : Nat) : Nat :=
  if i < BACKOFF_SEQUENCE_SECONDS.length - 1 then i + 1 else i

/-! ### Adaptive concurrency (`runner.py`) -/

/-- Python `Runner._adaptive_adjust` (runner.py lines 761–771), restricted to the
`_effective_parallel` update (the signal emission carries no state):

```
if not self._adaptive_on: return
if exit_code != 0:
    self._effective_parallel = max(1, self._effective_parallel - 1)
else:
    if self._effective_parallel < self._desired_parallel:
        self._effective_parallel += 1
```

`Nat` subtraction truncates at zero, which agrees with Python's
`max(1, e - 1)` for every natural `e`. -/
def adaptiveAdjust (adaptiveOn : Bool) (desired effective : Nat) (exitCode : Int) : Nat :=
  if adaptiveOn = false then effective
  else if exitCode ≠ 0 then max 1 (effective - 1)
  else if effective < desired then effective + 1 else effective

/-- Python `Runner._apply_run_options`:
`self._desired_parallel = max(1, int(opts.parallel))`. -/
def desiredParallel (parallel : Int) : Nat :=
  (max 1 parallel).toNat

/-- The effective parallelism after a sequence of item exit codes, starting
from `self._effective_parallel = self._desired_parallel`
(`_apply_run_options`). -/
def runAdaptive (adaptiveOn : Bool) (desired : Nat) (codes : List Int) : Nat :=
  codes.foldl (fun e c => adaptiveAdjust adaptiveOn desired e c) desired

/-! ### Job data model (`job_types.py`) -/

/-- Python `QueueSource` enum of `job_types.py`. -/
inductive QueueSource where
  | manual
  | web
  | sentry
  deriving DecidableEq, Repr

/-- Python `QueueSource.value`. -/
def QueueSource.value : QueueSource → String
  | .manual => "manual"
  | .web => "web"
  | .sentry => "sentry"

/-- Python `QueueSource(s)`: the enum member with value `s`, if any (`ValueError`
modelled as `none`). -/
def queueSourceOf (s : String) : Option QueueSource :=
  if s = "manual" then some .manual
  else if s = "web" then some .web
  else if s = "sentry" then some .sentry
  else none

/-- Python `JobState(s)`. -/
def jobStateOf (s : String) : Option JobState :=
  if s = "pending" then some .pending
  else if s = "running" then some .running
  else if s = "paused" then some .paused
  else if s = "success" then some .success
  else if s = "failed" then some .failed
  else if s = "cancelled" then some .cancelled
  else none

/-- Python `JobItemState(s)`. -/
def jobItemStateOf (s : String) : Option JobItemState :=
  if s = "pending" then some .pending
  else if s = "running" then some .running
  else if s = "success" then some .success
  else if s = "failed" then some .failed
  else if s = "skipped" then some .skipped
  else if s = "cancelled" then some .cancelled
  else none

/-- Python `JobItem` dataclass of `job_types.py`. `meta : Dict[str, str]` is an
insertion-ordered string-to-string map, modelled as an association list. -/
structure JobItem where
  item_id : Int
  url : String
  state : JobItemState
  progress : Int
  log_excerpt : String
  error : String
  meta : List (String × String)
  deriving DecidableEq, Repr

/-- Python `JobItem.set_progress`: `pct = max(0, min(100, int(pct)))`. -/
def JobItem.set_progress (it : JobItem) (pct : Int) : JobItem :=
  { it with progress := max 0 (min 100 pct) }

/-- Python `Job` dataclass of `job_types.py`. Timestamps (`time.time()` floats) are
modelled as rationals; `options : Dict[str, object]` maps strings to values
of an arbitrary type `Opt`, kept abstract because the scheduler core only
carries them through. -/
structure Job (Opt : Type) where
  job_id : Int
  label : String
  source : QueueSource
  items : List JobItem
  created_at : Rat
  started_at : Option Rat
  finished_at : Option Rat
  state : JobState
  options : List (String × Opt)
  last_error : String
  auto_remove : Bool
  deriving DecidableEq

/-- Python truthiness of an `Optional[float]`: `None` and `0.0` are falsy. -/
def truthyTime (t : Option Rat) : Bool :=
  match t with
  | none => false
  | some q => if q = 0 then false else true

/-- Python `Job.mark_started` of `job_types.py`, with the current `time.time()`
passed explicitly:

```
if not self.started_at:
    self.started_at = time.time()
self.state = JobState.RUNNING
```
-/
def Job.mark_started {Opt : Type} (j : Job Opt) (now : Rat) : Job Opt :=
  let j' := if truthyTime j.started_at then j else { j with started_at := some now }
  { j' with state := JobState.running }

/-- Python `Job.mark_finished`: `self.state = state; self.finished_at = time.time()`. -/
def Job.mark_finished {Opt : Type} (j : Job Opt) (state : JobState) (now : Rat) : Job Opt :=
  { j with state := state, finished_at := some now }

/-- Python `Job.progress_percent`:

```
if not self.items: return 0
total = sum(min(max(it.progress, 0), 100) for it in self.items)
return int(total / len(self.items))
```

Each clamped summand lies in `[0, 100]`, so `total` is a natural number and
Python's `int(total / len)` is the floor of an exact nonnegative quotient,
i.e. natural division. -/
def Job.progress_percent {Opt : Type} (j : Job Opt) : Nat :=
  if j.items.isEmpty then 0
  else (j.items.map (fun it => (min (max it.progress 0) 100).toNat)).sum / j.items.length

/-! ### `JobQueue.set_job_state` (`job_queue.py` lines 174–186)

```
job.state = state
if state == JobState.RUNNING and not job.started_at:
    job.mark_started()
if state.is_terminal():
    job.mark_finished(state)
if error is not None:
    job.last_error = error
```

The queue lookup, persistence and signal emission carry no job state; the
mutation applied to the found job is modelled. Both `time.time()` calls of a
single `set_job_state` invocation are represented by one `now` value. -/
def setJobState {Opt : Type} (j : Job Opt) (state : JobState) (error : Option String)
    (now : Rat) : Job Opt :=
  let j1 := { j with state := state }
  let j2 :=
    if state = JobState.running ∧ truthyTime j1.started_at = false then
      j1.mark_started now
    else j1
  let j3 := if state.is_terminal then j2.mark_finished state now else j2
  match error with
  | none => j3
  | some e => { j3 with last_error := e }

/-! ### `Runner.start_job` rejection (`runner.py` lines 247–278) -/

/-- Python `Runner._start_next_item` marks the first Pending item Running with
progress 0 (via `_update_item_state` → `JobItem.set_progress(0)`). -/
def startFirstPending : List JobItem → List JobItem
  | [] => []
  | it :: rest =>
    if it.state = JobItemState.pending then
      { it with state := JobItemState.running, progress := 0 } :: rest
    else it :: startFirstPending rest

/-- Python `Runner.start_job`:

```
if self._proc: return False
pending = [it for it in job.items if it.state == JobItemState.PENDING]
if not pending: return False
... (reset run bookkeeping) ...
self._update_job_state(job, JobState.RUNNING)   # marks the job started
self._schedule_next_item(0)                     # starts the first pending item
return True
```

`procActive` is `self._proc is not None`. The accepted branch is modelled up
to the job mutations (mark started, start first pending item); the rejected
branches mutate nothing. -/
def startJob {Opt : Type} (procActive : Bool) (job : Job Opt) (now : Rat) :
    Bool × Job Opt :=
  if procActive then (false, job)
  else if (job.items.filter (fun it => it.state = JobItemState.pending)).isEmpty then
    (false, job)
  else
    let j1 := job.mark_started now
    (true, { j1 with items := startFirstPending j1.items })

/-- The two runner slots the start/finish lifecycle toggles: `self._proc`
(whether a child process object is present) and `self._job` (the job the
runner currently owns). -/
structure RunnerSlot (Opt : Type) where
  proc : Bool
  job : Option (Job Opt)
  deriving DecidableEq

/-- Python `_cleanup_after_item` (runner.py lines 675–687): disposes the
finished child process and sets `self._proc = None`. `self._job` is left in
place — the job is still owned, and still Running, until `_finalize_job`.
`_handle_item_finished` calls this before `_schedule_next_item(delay_sec)`,
which for a positive delay only arms `QTimer.singleShot` and returns
(runner.py lines 377–392), so until that timer fires the runner sits in
exactly this slot state. -/
def cleanupAfterItem {Opt : Type} (r : RunnerSlot Opt) : RunnerSlot Opt :=
  { r with proc := false }

/-- Concrete mid-run job for the C6 analysis: its first item finished, its
second item is still Pending, and its state is Running (as stamped when it
was started). -/
def jobMidRun : Job Unit :=
  { job_id := 1
    label := "A"
    source := QueueSource.manual
    items := [⟨1, "u1", JobItemState.success, 100, "", "", []⟩,
              ⟨2, "u2", JobItemState.pending, 0, "", "", []⟩]
    created_at := 0
    started_at := some 1
    finished_at := none
    state := JobState.running
    options := []
    last_error := ""
    auto_remove := false }

/-- Concrete freshly queued second job for the C6 analysis: one Pending
item, never started. -/
def jobQueuedNext : Job Unit :=
  { job_id := 2
    label := "B"
    source := QueueSource.manual
    items := [⟨3, "u3", JobItemState.pending, 0, "", "", []⟩]
    created_at := 0
    started_at := none
    finished_at := none
    state := JobState.pending
    options := []
    last_error := ""
    auto_remove := false }

/-! ### `Runner._finalize_job` and the per-item bookkeeping loop -/

/-- The item state recorded by `_handle_item_finished`:

```
success = int(code) == 0 and not self._job_cancelled
if success: SUCCESS
elif self._job_cancelled: CANCELLED
else: FAILED
```
-/
def finishItemState (code : Int) (jobCancelled : Bool) : JobItemState :=
  if code = 0 ∧ jobCancelled = false then JobItemState.success
  else if jobCancelled then JobItemState.cancelled
  else JobItemState.failed

/-- Python `_finalize_job` (runner.py lines 689–701), as a decision on the item
states, the cancel flag and the recorded failure tally:

```
if any(it.state == JobItemState.PENDING for it in job.items): return
if self._job_cancelled: final_state = CANCELLED
elif self._job_totals.items_fail > 0: final_state = FAILED
else: final_state = SUCCESS
```

`none` means the early return (no finalization). -/
def finalizeJob (items : List JobItemState) (jobCancelled : Bool) (itemsFail : Nat) :
    Option JobState :=
  if items.any (fun s => s = JobItemState.pending) then none
  else if jobCancelled then some JobState.cancelled
  else if 0 < itemsFail then some JobState.failed
  else some JobState.success

/-- Python `_start_next_item` picks the FIRST item whose state is Pending; marking
the finished item's terminal state therefore rewrites the first Pending slot. -/
def setFirstPendingState (s' : JobItemState) : List JobItemState → List JobItemState
  | [] => []
  | s :: rest =>
    if s = JobItemState.pending then s' :: rest else s :: setFirstPendingState s' rest

/-- The item-state list and `items_fail` tally carried across one job run
(`self._job_totals.items_fail`). -/
structure RunAcc where
  states : List JobItemState
  itemsFail : Nat
  deriving DecidableEq, Repr

/-- One loop iteration of the sequential runner with the cancel flag unset:
the first Pending item finishes with exit code `code`
(`_handle_item_finished` state recording plus the `items_fail` increment of
its failure branch). -/
def stepItem (acc : RunAcc) (code : Int) : RunAcc :=
  let s := finishItemState code false
  { states := setFirstPendingState s acc.states,
    itemsFail := acc.itemsFail + (if s = JobItemState.failed then 1 else 0) }

/-- Run every item of a job to completion with the given exit codes. -/
def runItems (acc : RunAcc) (codes : List Int) : RunAcc :=
  codes.foldl stepItem acc

/-! ### Percent-token extraction (`runner.py` `_tail_tick`)

`PERCENT_RE = re.compile(r"(?<!\d)(\d{1,3})%(?!\d)")`: a maximal digit run of
length 1–3 immediately followed by `%` whose following character is not a
digit (the lookbehind pins the match to the start of a maximal run; for runs
of 4+ digits no backtracking of `\d{1,3}` can reach the `%`, so such runs
never match). -/

def isDigitChar (c : Char) : Bool :=
  '0' ≤ c && c ≤ '9'

def digitVal (c : Char) : Nat :=
  c.toNat - '0'.toNat

/-- The `(?!\d)` lookahead after the `%`. -/
def nextNotDigit : List Char → Bool
  | d :: _ => !(isDigitChar d)
  | [] => true

/-- Left-to-right scan implementing `PERCENT_RE.finditer`: the accumulator
holds the length and value of the digit run currently being read. -/
def scanPercents : List Char → Option (Nat × Nat) → List Nat
  | [], _ => []
  | c :: rest, none =>
    if isDigitChar c then scanPercents rest (some (1, digitVal c))
    else scanPercents rest none
  | c :: rest, some (len, v) =>
    if isDigitChar c then scanPercents rest (some (len + 1, v * 10 + digitVal c))
    else if c = '%' then
      if len ≤ 3 && nextNotDigit rest then
        v :: scanPercents rest none
      else scanPercents rest none
    else scanPercents rest none

/-- The integer values of all `PERCENT_RE` matches in a cleaned chunk
(`int(m.group(1))` for each match). -/
def percentTokens (cleaned : String) : List Nat :=
  scanPercents cleaned.data none

/-- The progress values `_tail_tick` actually emits:
`if 0 <= pct <= 100: self.sig_job_item_progress.emit(...)`. A parsed token is
a nonnegative integer, so only the upper bound filters. -/
def emittedPercents (cleaned : String) : List Nat :=
  (percentTokens cleaned).filter (fun pct => pct ≤ 100)

/-! ### Id allocation and snapshot resynchronization (`job_queue.py`) -/

/-- Python `JobQueue._allocate_job_id` / `_allocate_item_id` (identical code on the
two counters `_next_job_id` / `_next_item_id`):

```
job_id = self._next_job_id
self._next_job_id += 1
return job_id
```

Returns the allocated id and the updated counter. -/
def allocateId (next : Int) : Int × Int :=
  (next, next + 1)

/-- The ids handed out by `n` consecutive allocator calls. -/
def allocSeq (next : Int) : Nat → List Int
  | 0 => []
  | n + 1 =>
    let r := allocateId next
    r.1 :: allocSeq r.2 n

/-- Python `_load_state`'s running maximum over the ids of the kept jobs (resp. their
items): `max_job_id = max(max_job_id, job.job_id)` starting from `0`. -/
def loadMaxId (ids : List Int) : Int :=
  ids.foldl max 0

/-- Python `_load_state` resynchronization of an allocator:
`self._next_job_id = max(max_job_id + 1, int(payload.get("next_job_id", 1)))`
(and the same with `next_item_id`/`max_item_id`). -/
def resyncNext (ids : List Int) (payloadNext : Int) : Int :=
  max (loadMaxId ids + 1) payloadNext

/-! ### Serialization (`job_types.py` `to_dict` / `from_dict`)

`to_dict` always emits the same keys with values of the same Python types, so
its output dictionaries are modelled by typed payload records. `from_dict`'s
defaults for absent keys and its type-coercion fallbacks
(`int(...)`, `str(...)`, try/except around enum constructors and items) are
exercised only on foreign payloads; on payloads of `to_dict`'s shape the
coercions are identities and the modelled enum fallback is the only
non-trivial step. -/

/-- The dictionary produced by `JobItem.to_dict`: `asdict(self)` with
`data["state"] = self.state.value`. -/
structure JobItemDict where
  item_id : Int
  url : String
  state : String
  progress : Int
  log_excerpt : String
  error : String
  meta : List (String × String)
  deriving DecidableEq, Repr

/-- Python `JobItem.to_dict`. -/
def JobItem.to_dict (it : JobItem) : JobItemDict :=
  { item_id := it.item_id
    url := it.url
    state := it.state.value
    progress := it.progress
    log_excerpt := it.log_excerpt
    error := it.error
    meta := it.meta }

/-- Python `JobItem.from_dict` on a payload of `to_dict`'s shape:

```
try: state_enum = JobItemState(state)
except ValueError: state_enum = JobItemState.PENDING
meta = payload.get("meta") or {}
if not isinstance(meta, dict): meta = {}
return cls(item_id=int(...), url=str(...), state=state_enum, ...)
```

`meta or {}` maps a falsy (empty) dict to a fresh empty dict — the identity
on the value level. -/
def JobItem.from_dict (d : JobItemDict) : JobItem :=
  { item_id := d.item_id
    url := d.url
    state := (jobItemStateOf d.state).getD JobItemState.pending
    progress := d.progress
    log_excerpt := d.log_excerpt
    error := d.error
    meta := if d.meta.isEmpty then [] else d.meta }

/-- The dictionary produced by `Job.to_dict`. -/
structure JobDict (Opt : Type) where
  job_id : Int
  label : String
  source : String
  items : List JobItemDict
  created_at : Rat
  started_at : Option Rat
  finished_at : Option Rat
  state : String
  options : List (String × Opt)
  last_error : String
  auto_remove : Bool
  deriving DecidableEq

/-- Python `Job.to_dict`. -/
def Job.to_dict {Opt : Type} (j : Job Opt) : JobDict Opt :=
  { job_id := j.job_id
    label := j.label
    source := j.source.value
    items := j.items.map JobItem.to_dict
    created_at := j.created_at
    started_at := j.started_at
    finished_at := j.finished_at
    state := j.state.value
    options := j.options
    last_error := j.last_error
    auto_remove := j.auto_remove }

/-- Python `Job.from_dict` on a payload of `to_dict`'s shape: enum constructors with
try/except fallbacks to `MANUAL` / `PENDING`; every item parsed (the
per-item `except Exception: continue` cannot fire on a typed payload);
`options or {}` and the `isinstance` guard are the identity as for `meta`;
`float(payload.get("created_at"))`, `int(...)`, `str(...)`, `bool(...)` are
identities on values of the emitted types; `started_at` / `finished_at` are
passed through unconverted. -/
def Job.from_dict {Opt : Type} (d : JobDict Opt) : Job Opt :=
  { job_id := d.job_id
    label := d.label
    source := (queueSourceOf d.source).getD QueueSource.manual
    items := d.items.map JobItem.from_dict
    created_at := d.created_at
    started_at := d.started_at
    finished_at := d.finished_at
    state := (jobStateOf d.state).getD JobState.pending
    options := if d.options.isEmpty then [] else d.options
    last_error := d.last_error
    auto_remove := d.auto_remove }

/-! ### Theorems -/

lemma leadMatch_iff (n : List Char) : ∀ h : List Char, leadMatch n h = true ↔ n <+: h := by
  induction n with
  | nil =>
    intro h
    simp [leadMatch]
  | cons c cs ih =>
    intro h
    cases h with
    | nil => simp [leadMatch]
    | cons d ds =>
      simp [leadMatch, List.cons_prefix_cons, ih ds, and_comm]

lemma subMatch_iff (n : List Char) : ∀ h : List Char, subMatch n h = true ↔ n <:+: h := by
  intro h
  induction h with
  | nil =>
    cases n with
    | nil => simp [subMatch, leadMatch]
    | cons c cs => simp [subMatch, leadMatch]
  | cons d ds ih =>
    simp [subMatch, leadMatch_iff, ih, List.infix_cons_iff]

lemma sawRateLimit_of_token {tok : String} {cs : List Char}
    (htok : tok ∈ RATE_LIMIT_TOKENS) (h : tok.data <:+: cs) : sawRateLimit cs = true := by
  unfold sawRateLimit
  rw [List.any_eq_true]
  exact ⟨tok, htok, (subMatch_iff tok.data cs).mpr h⟩

/-- A plain failure advances the failure counter and the (capped) ladder
index, and proposes exactly the ladder value at the advanced index. -/
lemma handleBackoff_plainFailure (st : BackoffState) (o : ItemOutcome)
    (h : plainFailure o) :
    handleBackoff st o false false 0 =
      (⟨st.consecutive_failures + 1, advanceIndex st.backoff_index⟩,
        ladderAt (advanceIndex st.backoff_index)) := by
  obtain ⟨h1, h2, h3⟩ := h
  simp [handleBackoff, advanceIndex, ladderAt, h1, h2, Nat.not_le.mpr h3]

lemma advanceIndex_eq_min {i : Nat} (hi : i ≤ 2) : advanceIndex i = min (i + 1) 2 := by
  have hlen : BACKOFF_SEQUENCE_SECONDS.length = 3 := rfl
  unfold advanceIndex
  rw [hlen]
  by_cases h : i < 3 - 1
  · rw [if_pos h]; omega
  · rw [if_neg h]; omega

/-- Closed form for the delays along a run of plain failures: the `k`-th delay
is the ladder value at index `min (i₀ + k + 1) 2`. -/
lemma runDelays_plainFailures (os : List ItemOutcome) :
    ∀ st : BackoffState, st.backoff_index ≤ 2 → (∀ o ∈ os, plainFailure o) →
      runDelays st os =
        (List.range os.length).map
          (fun k => ladderAt (min (st.backoff_index + k + 1) 2)) := by
  induction os with
  | nil => intro st _ _; simp [runDelays]
  | cons o os ih =>
    intro st hidx hos
    have ho : plainFailure o := hos o (List.mem_cons_self o os)
    have hos' : ∀ o' ∈ os, plainFailure o' := fun o' h' => hos o' (List.mem_cons_of_mem o h')
    have hadv : advanceIndex st.backoff_index = min (st.backoff_index + 1) 2 :=
      advanceIndex_eq_min hidx
    have hstep := handleBackoff_plainFailure st o ho
    have hidx' : advanceIndex st.backoff_index ≤ 2 := by
      rw [hadv]; exact min_le_right _ _
    simp only [runDelays, hstep]
    rw [ih ⟨st.consecutive_failures + 1, advanceIndex st.backoff_index⟩ hidx' hos']
    rw [List.length_cons, List.range_succ_eq_map, List.map_cons, List.map_map]
    refine congrArg₂ List.cons ?_ (List.map_congr_left ?_)
    · show ladderAt (advanceIndex st.backoff_index) = ladderAt (min (st.backoff_index + 0 + 1) 2)
      rw [hadv]
    · intro k hk
      show ladderAt (min (advanceIndex st.backoff_index + k + 1) 2) =
        ladderAt (min (st.backoff_index + (k + 1) + 1) 2)
      congr 1
      rw [hadv]
      omega

lemma ladderAt_le_30 {i : Nat} (hi : i ≤ 2) : ladderAt i ≤ 30 := by
  interval_cases i <;> decide

lemma ladderAt_mono {i j : Nat} (hij : i ≤ j) (hj : j ≤ 2) : ladderAt i ≤ ladderAt j := by
  have hi : i ≤ 2 := le_trans hij hj
  interval_cases j <;> interval_cases i <;> simp_all <;> decide

/-- A successful item (exit code 0, job not cancelled) takes the reset branch:
`BACKOFF_RESET_ON_SUCCESS` is `True`, so both the consecutive-failure counter
and the ladder index return to zero. -/
lemma handleBackoff_success_resets (st : BackoffState) (o : ItemOutcome)
    (h : o.code = 0) (sentryEnabled : Bool) (sentryGapSec : Nat) :
    (handleBackoff st o false sentryEnabled sentryGapSec).1 = ⟨0, 0⟩ := by
  simp [handleBackoff, h, BACKOFF_RESET_ON_SUCCESS]

/-- C1 (amended): for a run of consecutive item failures with no rate-limit
signal (sentry mode off, each item producing fewer than 30 output files,
starting from any reachable backoff state, i.e. ladder index ≤ 2), the
sequence of inter-item delays is non-decreasing and never exceeds the ladder's
maximum rung (30 seconds); one successful item resets the consecutive-failure
counter and ladder index to zero, so the next failure's proposed delay is the
ladder's SECOND rung (20 seconds) — the failure branch advances the index
before reading the ladder, so the first rung (10 seconds) is never proposed
from the failure path. -/
theorem backoff_ladder_monotone_and_reset (st : BackoffState) (os : List ItemOutcome)
    (succItem failItem : ItemOutcome)
    (hidx : st.backoff_index ≤ 2)
    (hos : ∀ o ∈ os, plainFailure o)
    (hsucc : succItem.code = 0)
    (hfail : plainFailure failItem) :
    List.Sorted (· ≤ ·) (runDelays st os)
    ∧ (∀ d ∈ runDelays st os, d ≤ 30)
    ∧ (handleBackoff st succItem false false 0).1 = ⟨0, 0⟩
    ∧ (handleBackoff (handleBackoff st succItem false false 0).1 failItem false false 0).2
        = 20 := by
  have hclosed := runDelays_plainFailures os st hidx hos
  refine ⟨?_, ?_, handleBackoff_success_resets st succItem hsucc false 0, ?_⟩
  · rw [hclosed]
    rw [List.Sorted, List.pairwise_map]
    have hrange : List.Pairwise (· < ·) (List.range os.length) := List.pairwise_lt_range _
    refine hrange.imp ?_
    intro a b hab
    refine ladderAt_mono ?_ (min_le_right _ _)
    omega
  · intro d hd
    rw [hclosed] at hd
    obtain ⟨k, _, rfl⟩ := List.mem_map.mp hd
    exact ladderAt_le_30 (min_le_right _ _)
  · rw [handleBackoff_success_resets st succItem hsucc false 0,
      handleBackoff_plainFailure _ failItem hfail]
    decide

/-- C1 counterexample to the claim as stated: item fails right after a
success has reset the ladder; the proposed delay is 20 seconds (the second
rung), not the ladder's first rung (10 seconds). -/
theorem backoff_after_reset_delay_is_not_first_rung :
    (handleBackoff (handleBackoff ⟨3, 2⟩ ⟨0, "", 0⟩ false false 0).1
        ⟨1, "", 0⟩ false false 0).2 = 20
    ∧ (handleBackoff (handleBackoff ⟨3, 2⟩ ⟨0, "", 0⟩ false false 0).1
        ⟨1, "", 0⟩ false false 0).2 ≠ 10 := by
  decide

/-- Witness for `backoff_ladder_monotone_and_reset` at a concrete run:
three plain failures from a fresh state, one success, one further failure. -/
theorem backoff_ladder_monotone_and_reset_witness :
    ((⟨0, 0⟩ : BackoffState).backoff_index ≤ 2
      ∧ (∀ o ∈ ([⟨1, "error: not found", 0⟩, ⟨1, "", 2⟩, ⟨7, "fail", 1⟩] : List ItemOutcome),
          plainFailure o)
      ∧ (⟨0, "ok", 3⟩ : ItemOutcome).code = 0
      ∧ plainFailure ⟨1, "boom", 0⟩)
    ∧ (List.Sorted (· ≤ ·)
        (runDelays ⟨0, 0⟩ [⟨1, "error: not found", 0⟩, ⟨1, "", 2⟩, ⟨7, "fail", 1⟩])
      ∧ (∀ d ∈ runDelays ⟨0, 0⟩ [⟨1, "error: not found", 0⟩, ⟨1, "", 2⟩, ⟨7, "fail", 1⟩],
          d ≤ 30)
      ∧ (handleBackoff ⟨0, 0⟩ ⟨0, "ok", 3⟩ false false 0).1 = ⟨0, 0⟩
      ∧ (handleBackoff (handleBackoff ⟨0, 0⟩ ⟨0, "ok", 3⟩ false false 0).1
          ⟨1, "boom", 0⟩ false false 0).2 = 20) :=
  ⟨⟨by decide, by decide, by decide, by decide⟩,
    backoff_ladder_monotone_and_reset ⟨0, 0⟩
      [⟨1, "error: not found", 0⟩, ⟨1, "", 2⟩, ⟨7, "fail", 1⟩]
      ⟨0, "ok", 3⟩ ⟨1, "boom", 0⟩ (by decide) (by decide) (by decide) (by decide)⟩

/-- C3: if an item fails (non-zero exit, job not cancelled) and the collected
lower-cased raw output contains one of the rate-limit tokens as a substring,
then the delay proposed before the next item is the ladder's maximum rung
(30 seconds), regardless of the current consecutive-failure count and ladder
index, provided sentry mode is off and the output-file count is below the
throttle threshold. -/
theorem rate_limit_escalates_to_max_rung (st : BackoffState) (o : ItemOutcome)
    (hcode : o.code ≠ 0)
    (htok : ∃ tok ∈ RATE_LIMIT_TOKENS, tok.data <:+: collectRaw o.raw)
    (houts : o.outputs < THROTTLE_TRACKS_THRESHOLD) :
    (handleBackoff st o false false 0).2 = 30 := by
  obtain ⟨tok, hmem, hinf⟩ := htok
  have hsaw : sawRateLimit (collectRaw o.raw) = true := sawRateLimit_of_token hmem hinf
  simp [handleBackoff, hcode, hsaw, Nat.not_le.mpr houts]
  decide

/-- Witness for `rate_limit_escalates_to_max_rung`: fresh backoff state, exit
code 1, output text carrying a "429" marker. -/
theorem rate_limit_escalates_to_max_rung_witness :
    ((1 : Int) ≠ 0
      ∧ (∃ tok ∈ RATE_LIMIT_TOKENS,
          tok.data <:+: collectRaw "HTTP 429 Too Many Requests")
      ∧ (0 : Nat) < THROTTLE_TRACKS_THRESHOLD)
    ∧ (handleBackoff ⟨0, 0⟩ ⟨1, "HTTP 429 Too Many Requests", 0⟩ false false 0).2 = 30 :=
  ⟨⟨by decide, ⟨"429", by decide, by decide⟩, by decide⟩,
    rate_limit_escalates_to_max_rung ⟨0, 0⟩ ⟨1, "HTTP 429 Too Many Requests", 0⟩
      (by decide) ⟨"429", by decide, by decide⟩ (by decide)⟩

lemma adaptiveAdjust_bounds (a : Bool) (d e : Nat) (c : Int)
    (h1 : 1 ≤ e) (h2 : e ≤ d) :
    1 ≤ adaptiveAdjust a d e c ∧ adaptiveAdjust a d e c ≤ d := by
  unfold adaptiveAdjust
  split
  · exact ⟨h1, h2⟩
  · split
    · omega
    · split <;> omega

lemma runAdaptive_fold_bounds (a : Bool) (d : Nat) (codes : List Int) :
    ∀ e, 1 ≤ e → e ≤ d →
      1 ≤ codes.foldl (fun e c => adaptiveAdjust a d e c) e
      ∧ codes.foldl (fun e c => adaptiveAdjust a d e c) e ≤ d := by
  induction codes with
  | nil =>
    intro e h1 h2
    exact ⟨h1, h2⟩
  | cons c cs ih =>
    intro e h1 h2
    have hb := adaptiveAdjust_bounds a d e c h1 h2
    simpa [List.foldl] using ih _ hb.1 hb.2

lemma one_le_desiredParallel (p : Int) : 1 ≤ desiredParallel p := by
  unfold desiredParallel
  omega

/-- C4: for every sequence of item exit codes, the effective parallelism
maintained by the adaptive controller — starting from
`effective = desired = max(1, parallel)` and adjusted by `_adaptive_adjust`
after each item — never drops below 1 and never exceeds the desired
parallelism. -/
theorem adaptive_parallel_bounded (adaptiveOn : Bool) (parallel : Int)
    (codes : List Int) :
    1 ≤ runAdaptive adaptiveOn (desiredParallel parallel) codes
    ∧ runAdaptive adaptiveOn (desiredParallel parallel) codes
        ≤ desiredParallel parallel := by
  unfold runAdaptive
  exact runAdaptive_fold_bounds adaptiveOn (desiredParallel parallel) codes
    (desiredParallel parallel) (one_le_desiredParallel parallel) le_rfl

lemma setJobState_running_started_at {Opt : Type} (j : Job Opt)
    (e : Option String) (t : Rat) :
    (setJobState j JobState.running e t).started_at =
      if truthyTime j.started_at then j.started_at else some t := by
  cases e <;>
    cases htr : truthyTime j.started_at <;>
      simp [setJobState, Job.mark_started, Job.mark_finished, JobState.is_terminal, htr]

lemma setJobState_terminal_finished_at {Opt : Type} (j : Job Opt) (s : JobState)
    (e : Option String) (t : Rat) (hs : s.is_terminal = true) :
    (setJobState j s e t).finished_at = some t := by
  cases e <;> cases s <;>
    simp_all [setJobState, Job.mark_started, Job.mark_finished, JobState.is_terminal]

/-- C5: `set_job_state` does not double-stamp timestamps. Entering Running
stamps `started_at` exactly once: a job without a (truthy) start timestamp
gets `started_at = now`, and a second Running transition leaves the stored
`started_at` unchanged. Entering a terminal state stamps `finished_at` to the
entry time — exactly one stamp per terminal entry. (`t1 ≠ 0` because
`time.time()` values are positive; a zero float timestamp is falsy in
Python.) -/
theorem set_job_state_stamps_once {Opt : Type} (j : Job Opt)
    (e1 e2 e3 : Option String) (t1 t2 t3 : Rat) (s : JobState)
    (ht1 : t1 ≠ 0) (hs : s.is_terminal = true) :
    (truthyTime j.started_at = false →
      (setJobState j JobState.running e1 t1).started_at = some t1)
    ∧ (setJobState (setJobState j JobState.running e1 t1)
          JobState.running e2 t2).started_at
        = (setJobState j JobState.running e1 t1).started_at
    ∧ (setJobState j s e3 t3).finished_at = some t3 := by
  refine ⟨?_, ?_, setJobState_terminal_finished_at j s e3 t3 hs⟩
  · intro hfalse
    rw [setJobState_running_started_at, hfalse]
    simp
  · rw [setJobState_running_started_at, setJobState_running_started_at j e1 t1]
    cases htr : truthyTime j.started_at with
    | true => simp [htr]
    | false => simp [truthyTime, ht1]

/-- Witness for `set_job_state_stamps_once`: a fresh pending job, Running
stamped at time 5, re-entered at time 9, finished Failed at time 4. -/
theorem set_job_state_stamps_once_witness :
    ((5 : Rat) ≠ 0 ∧ JobState.failed.is_terminal = true)
    ∧ ((truthyTime (⟨1, "J", QueueSource.manual, [], 0, none, none, JobState.pending,
          ([] : List (String × Unit)), "", false⟩ : Job Unit).started_at = false →
        (setJobState (⟨1, "J", QueueSource.manual, [], 0, none, none, JobState.pending,
          [], "", false⟩ : Job Unit) JobState.running none 5).started_at = some 5)
      ∧ (setJobState (setJobState (⟨1, "J", QueueSource.manual, [], 0, none, none,
            JobState.pending, [], "", false⟩ : Job Unit) JobState.running none 5)
            JobState.running none 9).started_at
          = (setJobState (⟨1, "J", QueueSource.manual, [], 0, none, none,
            JobState.pending, [], "", false⟩ : Job Unit)
            JobState.running none 5).started_at
      ∧ (setJobState (⟨1, "J", QueueSource.manual, [], 0, none, none, JobState.pending,
          [], "", false⟩ : Job Unit) JobState.failed none 4).finished_at = some 4) :=
  ⟨⟨by decide, by decide⟩,
    set_job_state_stamps_once
      (⟨1, "J", QueueSource.manual, [], 0, none, none, JobState.pending, [], "", false⟩ :
        Job Unit)
      none none none 5 9 4 JobState.failed (by decide) (by decide)⟩

/-- C6 (amended): `start_job` is rejected — returns `False` and leaves the
job untouched (so it is neither marked Running nor is any item started) —
whenever a child download process is currently active (`self._proc is not
None`), or whenever the given job has no Pending item. A job that is Running
but momentarily without a live process (inter-item backoff delay, pause) is
not covered by either guard and does not cause rejection. -/
theorem start_job_rejected {Opt : Type} (procActive : Bool) (job : Job Opt)
    (now : Rat)
    (h : procActive = true ∨ ∀ it ∈ job.items, it.state ≠ JobItemState.pending) :
    startJob procActive job now = (false, job) := by
  unfold startJob
  rcases h with h | h
  · rw [if_pos h]
  · cases hp : procActive with
    | true => rw [if_pos rfl]
    | false =>
      rw [if_neg (by simp)]
      rw [if_pos ?_]
      rw [List.isEmpty_iff, List.filter_eq_nil_iff]
      intro it hit
      simpa using h it hit

/-- Witness for `start_job_rejected`: no active process, one job whose only
item already succeeded. -/
theorem start_job_rejected_witness :
    ((false : Bool) = true
      ∨ ∀ it ∈ (⟨1, "J", QueueSource.manual,
          [⟨1, "u", JobItemState.success, 100, "", "", []⟩], 0, none, none,
          JobState.pending, ([] : List (String × Unit)), "", false⟩ : Job Unit).items,
        it.state ≠ JobItemState.pending)
    ∧ startJob false (⟨1, "J", QueueSource.manual,
        [⟨1, "u", JobItemState.success, 100, "", "", []⟩], 0, none, none,
        JobState.pending, [], "", false⟩ : Job Unit) 3
      = (false, ⟨1, "J", QueueSource.manual,
          [⟨1, "u", JobItemState.success, 100, "", "", []⟩], 0, none, none,
          JobState.pending, [], "", false⟩) :=
  ⟨Or.inr (by decide),
    start_job_rejected false
      (⟨1, "J", QueueSource.manual, [⟨1, "u", JobItemState.success, 100, "", "", []⟩],
        0, none, none, JobState.pending, [], "", false⟩ : Job Unit)
      3 (Or.inr (by decide))⟩

/-- C6 counterexample to the claim as stated ("rejected whenever another job
is already running"): a reachable inter-item window refutes it. An item of
the Running job `jobMidRun` has just finished with a positive backoff delay:
`_cleanup_after_item` cleared `self._proc` and `_schedule_next_item` merely
armed a timer, so `self._proc is None` while `jobMidRun` is still owned and
still Running. In that state `start_job` on a second job passes both guards
of runner.py lines 248–252: it is accepted (returns `True`) and the second
job is marked Running — not rejected, although another job is already
running. -/
theorem start_job_accepted_while_other_job_runs :
    (cleanupAfterItem ⟨true, some jobMidRun⟩).proc = false
    ∧ (cleanupAfterItem ⟨true, some jobMidRun⟩).job = some jobMidRun
    ∧ jobMidRun.state = JobState.running
    ∧ (startJob (cleanupAfterItem ⟨true, some jobMidRun⟩).proc jobQueuedNext 3).1 = true
    ∧ (startJob (cleanupAfterItem ⟨true, some jobMidRun⟩).proc jobQueuedNext 3).2.state
        = JobState.running := by
  decide

/-- C7: progress always lands in `[0, 100]`: `JobItem.set_progress` clamps
its argument into `[0, 100]`, and every percentage token emitted by the tail
ticker is an unmodified parsed token that is at most 100, while parsed tokens
above 100 are dropped entirely — never clamped and kept. -/
theorem progress_in_range_and_tokens_filtered :
    (∀ (it : JobItem) (pct : Int),
        0 ≤ (it.set_progress pct).progress ∧ (it.set_progress pct).progress ≤ 100)
    ∧ (∀ (s : String) (v : Nat), v ∈ emittedPercents s →
        v ∈ percentTokens s ∧ v ≤ 100)
    ∧ (∀ (s : String) (v : Nat), v ∈ percentTokens s → 100 < v →
        v ∉ emittedPercents s) := by
  refine ⟨?_, ?_, ?_⟩
  · intro it pct
    unfold JobItem.set_progress
    constructor
    · simp
    · simp only []
      omega
  · intro s v hv
    unfold emittedPercents at hv
    have := List.mem_filter.mp hv
    exact ⟨this.1, by simpa using this.2⟩
  · intro s v _ hgt hmem
    unfold emittedPercents at hmem
    have h2 := (List.mem_filter.mp hmem).2
    simp at h2
    omega

/-- Witness for `progress_in_range_and_tokens_filtered`: clamping 250, the
emitted token 45, and the dropped token 999 of `"45% and 999%"`. -/
theorem progress_in_range_and_tokens_filtered_witness :
    (0 ≤ (JobItem.set_progress ⟨1, "u", JobItemState.pending, 0, "", "", []⟩ 250).progress
      ∧ (JobItem.set_progress ⟨1, "u", JobItemState.pending, 0, "", "", []⟩ 250).progress
          ≤ 100)
    ∧ ((45 : Nat) ∈ emittedPercents "45% and 999%")
    ∧ ((45 : Nat) ∈ percentTokens "45% and 999%" ∧ (45 : Nat) ≤ 100)
    ∧ ((999 : Nat) ∈ percentTokens "45% and 999%" ∧ 100 < (999 : Nat))
    ∧ (999 : Nat) ∉ emittedPercents "45% and 999%" :=
  ⟨progress_in_range_and_tokens_filtered.1 ⟨1, "u", JobItemState.pending, 0, "", "", []⟩ 250,
    by decide,
    progress_in_range_and_tokens_filtered.2.1 "45% and 999%" 45 (by decide),
    ⟨by decide, by decide⟩,
    progress_in_range_and_tokens_filtered.2.2 "45% and 999%" 999 (by decide) (by decide)⟩

lemma finishItemState_not_cancelled (c : Int) :
    finishItemState c false =
      if c = 0 then JobItemState.success else JobItemState.failed := by
  unfold finishItemState
  by_cases hc : c = 0 <;> simp [hc]

lemma setFirstPendingState_append (s' : JobItemState) (rest : List JobItemState) :
    ∀ done : List JobItemState, (∀ s ∈ done, s ≠ JobItemState.pending) →
      setFirstPendingState s' (done ++ JobItemState.pending :: rest) =
        done ++ s' :: rest := by
  intro done
  induction done with
  | nil =>
    intro _
    simp [setFirstPendingState]
  | cons d ds ih =>
    intro h
    have hd : d ≠ JobItemState.pending := h d (List.mem_cons_self d ds)
    rw [List.cons_append]
    show (if d = JobItemState.pending then s' :: (ds ++ JobItemState.pending :: rest)
        else d :: setFirstPendingState s' (ds ++ JobItemState.pending :: rest))
      = (d :: ds) ++ s' :: rest
    rw [if_neg hd, ih (fun s hs => h s (List.mem_cons_of_mem d hs)), List.cons_append]

lemma runItems_closed (codes : List Int) :
    ∀ (done : List JobItemState) (f : Nat),
      (∀ s ∈ done, s ≠ JobItemState.pending) →
      runItems ⟨done ++ List.replicate codes.length JobItemState.pending, f⟩ codes =
        ⟨done ++ codes.map (fun c => finishItemState c false),
          f + (codes.filter (fun c => c ≠ 0)).length⟩ := by
  induction codes with
  | nil =>
    intro done f _
    simp [runItems]
  | cons c cs ih =>
    intro done f h
    have hstate := finishItemState_not_cancelled c
    have hnp : finishItemState c false ≠ JobItemState.pending := by
      rw [hstate]; by_cases hc : c = 0 <;> simp [hc]
    show runItems (stepItem ⟨done ++ List.replicate (c :: cs).length JobItemState.pending, f⟩ c) cs = _
    have hrepl : List.replicate (c :: cs).length JobItemState.pending =
        JobItemState.pending :: List.replicate cs.length JobItemState.pending := rfl
    have hstep : stepItem ⟨done ++ List.replicate (c :: cs).length JobItemState.pending, f⟩ c =
        ⟨(done ++ [finishItemState c false]) ++ List.replicate cs.length JobItemState.pending,
          f + (if finishItemState c false = JobItemState.failed then 1 else 0)⟩ := by
      unfold stepItem
      dsimp only
      rw [hrepl, setFirstPendingState_append _ _ done h]
      simp
    rw [hstep]
    rw [ih (done ++ [finishItemState c false]) _ ?_]
    · refine congrArg₂ RunAcc.mk ?_ ?_
      · simp
      · rw [hstate]
        by_cases hc : c = 0
        · simp [hc]
        · simp [hc]
          omega
    · intro s hs
      rcases List.mem_append.mp hs with hs | hs
      · exact h s hs
      · simpa using List.mem_singleton.mp hs ▸ hnp

/-- C2: `_finalize_job` fires exactly when no item of the job remains
Pending, and the terminal state has fixed priority Cancelled > Failed >
Success. The third conjunct ties the recorded `items_fail` tally to the
items themselves: when a job of `n` all-Pending items runs to completion
(cancel flag unset) with the given exit codes, finalization yields Failed
exactly when some item's exit code was non-zero, and Success otherwise. -/
theorem finalize_job_iff_no_pending_with_priority :
    (∀ (items : List JobItemState) (cancelled : Bool) (fails : Nat),
        (finalizeJob items cancelled fails).isSome = true ↔
          ∀ s ∈ items, s ≠ JobItemState.pending)
    ∧ (∀ (items : List JobItemState) (cancelled : Bool) (fails : Nat),
        (∀ s ∈ items, s ≠ JobItemState.pending) →
          finalizeJob items cancelled fails =
            some (if cancelled then JobState.cancelled
              else if 0 < fails then JobState.failed else JobState.success))
    ∧ (∀ codes : List Int,
        finalizeJob
            (runItems ⟨List.replicate codes.length JobItemState.pending, 0⟩ codes).states
            false
            (runItems ⟨List.replicate codes.length JobItemState.pending, 0⟩ codes).itemsFail
          = some (if ∃ c ∈ codes, c ≠ 0 then JobState.failed else JobState.success)) := by
  have hpend : ∀ (items : List JobItemState),
      (items.any (fun s => s = JobItemState.pending)) = false ↔
        ∀ s ∈ items, s ≠ JobItemState.pending := by
    intro items
    rw [List.any_eq_false]
    simp
  have hmain : ∀ (items : List JobItemState) (cancelled : Bool) (fails : Nat),
      (∀ s ∈ items, s ≠ JobItemState.pending) →
        finalizeJob items cancelled fails =
          some (if cancelled then JobState.cancelled
            else if 0 < fails then JobState.failed else JobState.success) := by
    intro items cancelled fails h
    unfold finalizeJob
    rw [if_neg (by rw [(hpend items).mpr h]; simp)]
    by_cases hc : cancelled = true
    · simp [hc]
    · rw [Bool.not_eq_true] at hc
      by_cases hf : 0 < fails <;> simp [hc, hf]
  refine ⟨?_, hmain, ?_⟩
  · intro items cancelled fails
    constructor
    · intro hsome
      by_contra hnot
      rw [← hpend items, Bool.not_eq_false] at hnot
      unfold finalizeJob at hsome
      rw [if_pos hnot] at hsome
      exact Bool.false_ne_true hsome
    · intro h
      rw [hmain items cancelled fails h]
      rfl
  · intro codes
    have hc := runItems_closed codes [] 0 (by simp)
    simp only [List.nil_append] at hc
    rw [hc]
    have hnopend : ∀ s ∈ codes.map (fun c => finishItemState c false),
        s ≠ JobItemState.pending := by
      intro s hs
      obtain ⟨c, _, rfl⟩ := List.mem_map.mp hs
      rw [finishItemState_not_cancelled c]
      by_cases hc0 : c = 0 <;> simp [hc0]
    rw [hmain _ false _ hnopend]
    have hiff : 0 < (codes.filter (fun c => c ≠ 0)).length ↔ ∃ c ∈ codes, c ≠ 0 := by
      rw [← List.countP_eq_length_filter, List.countP_pos_iff]
      simp
    simp only [Nat.zero_add]
    congr 1
    by_cases hex : ∃ c ∈ codes, c ≠ 0
    · rw [if_neg (by simp : ¬ (false = true)), if_pos (hiff.mpr hex), if_pos hex]
    · rw [if_neg (by simp : ¬ (false = true)), if_neg (fun hlt => hex (hiff.mp hlt)),
        if_neg hex]

/-- Witness for `finalize_job_iff_no_pending_with_priority`: the guard iff on
a two-item list, the Cancelled-first priority at a concrete call, and a
completed run with exit codes `[0, 5]` finalizing as Failed. -/
theorem finalize_job_iff_no_pending_with_priority_witness :
    ((finalizeJob [JobItemState.success, JobItemState.failed] true 1).isSome = true ↔
      ∀ s ∈ [JobItemState.success, JobItemState.failed], s ≠ JobItemState.pending)
    ∧ ((∀ s ∈ [JobItemState.success, JobItemState.failed], s ≠ JobItemState.pending)
        ∧ finalizeJob [JobItemState.success, JobItemState.failed] true 1 =
          some (if true then JobState.cancelled
            else if 0 < 1 then JobState.failed else JobState.success))
    ∧ finalizeJob
        (runItems ⟨List.replicate ([0, 5] : List Int).length JobItemState.pending, 0⟩ [0, 5]).states
        false
        (runItems ⟨List.replicate ([0, 5] : List Int).length JobItemState.pending, 0⟩ [0, 5]).itemsFail
      = some (if ∃ c ∈ ([0, 5] : List Int), c ≠ 0 then JobState.failed else JobState.success) :=
  ⟨finalize_job_iff_no_pending_with_priority.1 [JobItemState.success, JobItemState.failed] true 1,
    ⟨by decide,
      finalize_job_iff_no_pending_with_priority.2.1
        [JobItemState.success, JobItemState.failed] true 1 (by decide)⟩,
    finalize_job_iff_no_pending_with_priority.2.2 [0, 5]⟩

lemma allocSeq_lower (n : Nat) :
    ∀ (next a : Int), a ∈ allocSeq next n → next ≤ a := by
  induction n with
  | zero =>
    intro next a ha
    simp [allocSeq] at ha
  | succ m ih =>
    intro next a ha
    simp only [allocSeq, allocateId] at ha
    rcases List.mem_cons.mp ha with rfl | ha
    · exact le_rfl
    · have := ih (next + 1) a ha
      omega

lemma allocSeq_strict_mono (n : Nat) :
    ∀ next : Int, List.Pairwise (· < ·) (allocSeq next n) := by
  induction n with
  | zero =>
    intro next
    simp [allocSeq]
  | succ m ih =>
    intro next
    simp only [allocSeq, allocateId]
    refine List.Pairwise.cons ?_ (ih (next + 1))
    intro a ha
    have := allocSeq_lower m (next + 1) a ha
    omega

lemma foldl_max_le_acc (ids : List Int) :
    ∀ acc : Int, acc ≤ ids.foldl max acc := by
  induction ids with
  | nil => intro acc; simp
  | cons i is ih =>
    intro acc
    have := ih (max acc i)
    simp only [List.foldl]
    omega

lemma mem_le_foldl_max (ids : List Int) :
    ∀ (acc i : Int), i ∈ ids → i ≤ ids.foldl max acc := by
  induction ids with
  | nil =>
    intro acc i hi
    simp at hi
  | cons j js ih =>
    intro acc i hi
    rcases List.mem_cons.mp hi with rfl | hi
    · have := foldl_max_le_acc js (max acc i)
      simp only [List.foldl]
      omega
    · exact ih (max acc j) i hi

/-- C8: id allocation is monotonic and resynchronized after a snapshot load:
every run of allocator calls returns strictly increasing ids; after
`_load_state` the counter sits strictly above every id present in the loaded
jobs; hence every freshly allocated id is strictly larger than (so never
collides with) any loaded id. The same code runs on both the job-id and
item-id counters. -/
theorem id_allocation_monotonic_and_resynced :
    (∀ (next : Int) (n : Nat), List.Pairwise (· < ·) (allocSeq next n))
    ∧ (∀ (ids : List Int) (payloadNext i : Int), i ∈ ids →
        i < resyncNext ids payloadNext)
    ∧ (∀ (ids : List Int) (payloadNext : Int) (n : Nat) (i a : Int),
        i ∈ ids → a ∈ allocSeq (resyncNext ids payloadNext) n → i < a) := by
  have hresync : ∀ (ids : List Int) (payloadNext i : Int), i ∈ ids →
      i < resyncNext ids payloadNext := by
    intro ids payloadNext i hi
    have := mem_le_foldl_max ids 0 i hi
    unfold resyncNext loadMaxId
    omega
  refine ⟨fun next n => allocSeq_strict_mono n next, hresync, ?_⟩
  intro ids payloadNext n i a hi ha
  have h1 := hresync ids payloadNext i hi
  have h2 := allocSeq_lower n (resyncNext ids payloadNext) a ha
  omega

/-- Witness for `id_allocation_monotonic_and_resynced`: four allocations from
5; loaded ids `[3, 9, 2]` with persisted counter 4 resync to 10; the second
fresh id 11 exceeds the loaded id 9. -/
theorem id_allocation_monotonic_and_resynced_witness :
    List.Pairwise (· < ·) (allocSeq 5 4)
    ∧ ((9 : Int) ∈ ([3, 9, 2] : List Int) ∧ (9 : Int) < resyncNext [3, 9, 2] 4)
    ∧ ((11 : Int) ∈ allocSeq (resyncNext [3, 9, 2] 4) 2 ∧ (9 : Int) < 11) :=
  ⟨id_allocation_monotonic_and_resynced.1 5 4,
    ⟨by decide, id_allocation_monotonic_and_resynced.2.1 [3, 9, 2] 4 9 (by decide)⟩,
    ⟨by decide,
      id_allocation_monotonic_and_resynced.2.2 [3, 9, 2] 4 2 9 11 (by decide) (by decide)⟩⟩

lemma jobItemStateOf_value (s : JobItemState) : jobItemStateOf s.value = some s := by
  cases s <;> rfl

lemma jobStateOf_value (s : JobState) : jobStateOf s.value = some s := by
  cases s <;> rfl

lemma queueSourceOf_value (s : QueueSource) : queueSourceOf s.value = some s := by
  cases s <;> rfl

lemma jobItem_from_to_dict (it : JobItem) :
    JobItem.from_dict (JobItem.to_dict it) = it := by
  cases it with
  | mk item_id url state progress log_excerpt error meta =>
    simp only [JobItem.from_dict, JobItem.to_dict, jobItemStateOf_value, Option.getD_some]
    cases meta <;> simp

/-- C9: the serialization round-trip `Job.from_dict(job.to_dict())` is the
identity on every field — job id, label, source, the item sequence with all
per-item fields (string-to-string `meta` maps, as the dataclass annotation
declares), timestamps, state, options, last error and auto-remove flag. -/
theorem job_dict_roundtrip {Opt : Type} (j : Job Opt) :
    Job.from_dict (Job.to_dict j) = j := by
  cases j with
  | mk job_id label source items created_at started_at finished_at state options
      last_error auto_remove =>
    simp only [Job.from_dict, Job.to_dict, jobStateOf_value, queueSourceOf_value,
      Option.getD_some, List.map_map]
    have hitems : items.map (JobItem.from_dict ∘ JobItem.to_dict) = items := by
      induction items with
      | nil => rfl
      | cons it its ih => simp [Function.comp, jobItem_from_to_dict, ih]
    rw [hitems]
    cases options <;> simp

lemma clamped_progress_le (p : Int) : (min (max p 0) 100).toNat ≤ 100 := by
  omega

/-- C10: `Job.progress_percent` is total and always lands in `[0, 100]`: an
empty item list yields 0 with no division, and otherwise each stored
progress value is clamped into `[0, 100]` before averaging, so the result is
at most 100 even when an item's progress field is out of range (the result is
a natural number, so it is trivially at least 0). -/
theorem progress_percent_total_and_bounded {Opt : Type} (j : Job Opt) :
    (j.items = [] → j.progress_percent = 0) ∧ j.progress_percent ≤ 100 := by
  constructor
  · intro hempty
    unfold Job.progress_percent
    rw [if_pos (by simp [hempty])]
  · unfold Job.progress_percent
    by_cases hempty : j.items.isEmpty
    · rw [if_pos hempty]
      omega
    · rw [if_neg hempty]
      have hlen : 0 < j.items.length := by
        cases hit : j.items with
        | nil => rw [hit] at hempty; simp at hempty
        | cons a as => simp [hit]
      have hsum : (j.items.map (fun it => (min (max it.progress 0) 100).toNat)).sum ≤
          j.items.length * 100 := by
        calc (j.items.map (fun it => (min (max it.progress 0) 100).toNat)).sum
            ≤ (j.items.map (fun it => (min (max it.progress 0) 100).toNat)).length • 100 := by
              refine List.sum_le_card_nsmul _ 100 ?_
              intro x hx
              obtain ⟨it, _, rfl⟩ := List.mem_map.mp hx
              exact clamped_progress_le it.progress
          _ = j.items.length * 100 := by simp [smul_eq_mul]
      calc (j.items.map (fun it => (min (max it.progress 0) 100).toNat)).sum / j.items.length
          ≤ j.items.length * 100 / j.items.length := Nat.div_le_div_right hsum
        _ = 100 := by
            rw [Nat.mul_div_cancel_left _ hlen]

/-- Witness for `progress_percent_total_and_bounded`: a job with no items and
a job with out-of-range stored progress values. -/
theorem progress_percent_total_and_bounded_witness :
    ((⟨1, "J", QueueSource.manual, [], 0, none, none, JobState.pending,
        ([] : List (String × Unit)), "", false⟩ : Job Unit).items = [] →
      (⟨1, "J", QueueSource.manual, [], 0, none, none, JobState.pending,
        [], "", false⟩ : Job Unit).progress_percent = 0)
    ∧ (⟨1, "J", QueueSource.manual, [], 0, none, none, JobState.pending,
        ([] : List (String × Unit)), "", false⟩ : Job Unit).progress_percent ≤ 100 :=
  progress_percent_total_and_bounded
    (⟨1, "J", QueueSource.manual, [], 0, none, none, JobState.pending, [], "", false⟩ :
      Job Unit)

end SpotifydlGui
